import Mathlib

/-!
Verification of the ShiftLib165 driver (Driver.py): a bit-level driver for
the 74HC165 parallel-in serial-out shift register (class ShiftReg) and a
change-detection polling loop built on top of it (class ReadHandler).

The GPIO subsystem is modelled by an event trace: each io.setup, io.output
and io.input call performed by a method is recorded as one event, in call
order.  The level returned by io.input on the serial data pin is supplied
by an oracle inp : Nat -> Bool giving the level present at the k-th sample
of a read_register call (the register chain presents a new bit after each
clock pulse, so successive samples are indexed by sample number).
-/

/-- Direction argument of io.setup. -/
inductive Dir
  | input
  | output
deriving DecidableEq, Repr

/-- Pull resistor bias argument of io.setup; pud_off is the default when the
pull_up_down keyword is omitted. -/
inductive Pud
  | pud_off
  | pud_down
  | pud_up
deriving DecidableEq, Repr

/-- One GPIO call made by the driver: io.setup, io.output, or io.input
together with the value that the input call returned. -/
inductive Ev
  | setup (pin : Nat) (dir : Dir) (pud : Pud)
  | write (pin : Nat) (level : Nat)
  | readEv (pin : Nat) (value : Bool)
deriving DecidableEq, Repr

/-- The fields of a ShiftReg instance that the protocol methods use: the
four BCM pin numbers stored by the constructor and the configured bitcount. -/
structure ShiftReg where
  data_pin : Nat
  load_reg_pin : Nat
  clock_pin : Nat
  clock_enable : Nat
  bitcount : Nat
deriving DecidableEq, Repr

/-- Embedding of ShiftReg._gpio_init: the exact sequence of io.setup and
io.output calls it performs, in source order (Driver.py lines 79-88). -/
def ShiftReg.gpio_init (r : ShiftReg) : List Ev :=
  [Ev.setup r.data_pin Dir.input Pud.pud_down,
   Ev.setup r.clock_pin Dir.output Pud.pud_off,
   Ev.setup r.clock_enable Dir.output Pud.pud_off,
   Ev.setup r.load_reg_pin Dir.output Pud.pud_off,
   Ev.write r.clock_pin 0,
   Ev.write r.clock_enable 0,
   Ev.write r.load_reg_pin 1]

/-- Embedding of ShiftReg._load_register (Driver.py lines 165-166): drive
the parallel-load pin low then high. -/
def ShiftReg.load_register (r : ShiftReg) : List Ev :=
  [Ev.write r.load_reg_pin 0, Ev.write r.load_reg_pin 1]

/-- Embedding of ShiftReg._shift_register (Driver.py lines 123-125): n
times, drive the clock pin high then low. -/
def ShiftReg.shift_register (r : ShiftReg) (n : Nat) : List Ev :=
  ((List.range n).map (fun _ => [Ev.write r.clock_pin 1, Ev.write r.clock_pin 0])).flatten

/-- The loop body of ShiftReg.read_register (Driver.py lines 143-148)
run over a list of sample indices: for each index, read the serial data
pin (_read_input) and append the value, then cycle the clock once
(_shift_register with its default argument 1).  Returns the accumulated
register list in append order together with the GPIO event trace. -/
def ShiftReg.read_loop (r : ShiftReg) (inp : Nat → Bool) : List Nat → List Bool × List Ev
  | [] => ([], [])
  | k :: ks =>
    let v := inp k
    let (reg, evs) := ShiftReg.read_loop r inp ks
    (v :: reg, Ev.readEv r.data_pin v :: (r.shift_register 1 ++ evs))

/-- Embedding of ShiftReg.read_register (Driver.py lines 127-153):
load the register (_load_register), then for x in range(bitcount) sample
and shift, then reverse the accumulated list before returning it. -/
def ShiftReg.read_register (r : ShiftReg) (inp : Nat → Bool) : List Bool × List Ev :=
  let (reg, evs) := r.read_loop inp (List.range r.bitcount)
  (reg.reverse, r.load_register ++ evs)

theorem ShiftReg.shift_register_one (r : ShiftReg) :
    r.shift_register 1 = [Ev.write r.clock_pin 1, Ev.write r.clock_pin 0] := by
  simp [ShiftReg.shift_register, List.range_succ]

theorem ShiftReg.read_loop_eq (r : ShiftReg) (inp : Nat → Bool) (ks : List Nat) :
    r.read_loop inp ks =
      (ks.map inp,
       (ks.map (fun k =>
         [Ev.readEv r.data_pin (inp k), Ev.write r.clock_pin 1, Ev.write r.clock_pin 0])).flatten) := by
  induction ks with
  | nil => rfl
  | cons k ks ih =>
      simp [ShiftReg.read_loop, ih, ShiftReg.shift_register_one]

theorem ShiftReg.read_register_fst (r : ShiftReg) (inp : Nat → Bool) :
    (r.read_register inp).1 = ((List.range r.bitcount).map inp).reverse := by
  simp [ShiftReg.read_register, ShiftReg.read_loop_eq]

theorem ShiftReg.read_register_snd (r : ShiftReg) (inp : Nat → Bool) :
    (r.read_register inp).2 =
      [Ev.write r.load_reg_pin 0, Ev.write r.load_reg_pin 1] ++
      ((List.range r.bitcount).map (fun k =>
        [Ev.readEv r.data_pin (inp k), Ev.write r.clock_pin 1, Ev.write r.clock_pin 0])).flatten := by
  simp [ShiftReg.read_register, ShiftReg.read_loop_eq, ShiftReg.load_register]

/-- C1: read_register performs exactly the latch pulse (parallel-load
driven low then immediately high, with no intervening pin operation),
followed by bitcount repetitions of sample-then-clock-pulse (the serial
data read strictly precedes the clock-high and clock-low writes of the
same repetition), and nothing else; its returned list is the reverse of
the samples in acquisition order, so index 0 is the last-sampled
(first-loaded) bit and index bitcount - 1 is the first-sampled
(last-loaded) bit. -/
theorem read_register_protocol (r : ShiftReg) (inp : Nat → Bool) :
    (r.read_register inp).2 =
      [Ev.write r.load_reg_pin 0, Ev.write r.load_reg_pin 1] ++
      ((List.range r.bitcount).map (fun k =>
        [Ev.readEv r.data_pin (inp k), Ev.write r.clock_pin 1, Ev.write r.clock_pin 0])).flatten ∧
    (r.read_register inp).1 = ((List.range r.bitcount).map inp).reverse ∧
    ∀ i, i < r.bitcount →
      (r.read_register inp).1.getD i false = inp (r.bitcount - 1 - i) := by
  refine ⟨ShiftReg.read_register_snd r inp, ShiftReg.read_register_fst r inp, ?_⟩
  intro i hi
  rw [ShiftReg.read_register_fst]
  have hlen : (((List.range r.bitcount).map inp).reverse).length = r.bitcount := by
    simp
  rw [List.getD_eq_getElem _ _ (by simpa [hlen] using hi)]
  rw [List.getElem_reverse]
  simp [hi]

/-- Witness for C1 at a concrete driver with bitcount 8 and the input
oracle that presents a high level exactly at sample 7: index 0 of the
result is the last sample. -/
theorem read_register_protocol_witness :
    (0 : Nat) < 8 ∧
    (({ data_pin := 26, load_reg_pin := 4, clock_pin := 5, clock_enable := 6,
        bitcount := 8 } : ShiftReg).read_register (fun k => k == 7)).1.getD 0 false
      = ((7 : Nat) == 7) :=
  ⟨by decide,
   (read_register_protocol
     { data_pin := 26, load_reg_pin := 4, clock_pin := 5, clock_enable := 6, bitcount := 8 }
     (fun k => k == 7)).2.2 0 (by decide)⟩

/-- C2: for every configured bitcount and every state of the input line,
read_register returns a list whose length is exactly bitcount. -/
theorem read_register_length (r : ShiftReg) (inp : Nat → Bool) :
    (r.read_register inp).1.length = r.bitcount := by
  rw [ShiftReg.read_register_fst]
  simp

/-- Boolean predicate marking a pin index whose value differs between the
two readings with the new value high (the first branch of the comparison
at Driver.py lines 228-230). -/
def ReadHandler.went_high (reading last_reading : List Bool) (x : Nat) : Bool :=
  (reading.getD x false != last_reading.getD x false) && reading.getD x false

/-- Boolean predicate marking a pin index whose value differs between the
two readings with the new value low (the else branch at Driver.py
lines 231-232). -/
def ReadHandler.went_low (reading last_reading : List Bool) (x : Nat) : Bool :=
  (reading.getD x false != last_reading.getD x false) && !(reading.getD x false)

/-- The loop body of ReadHandler._detect_changed_pins (Driver.py
lines 227-232) run over a list of pin indices: indices whose value
changed are accumulated, in traversal order, into the pins_changed_up
list when the new value is high and into the pins_changed_down list when
it is low.  The source stores bits as the ints 0 and 1 returned by
io.input and compares with == 1; bits are modelled as Bool and the
comparison as equality with true.  List indexing is modelled with getD,
total exactly when both lists have length at least bitcount, the regime
in which the method is called. -/
def ReadHandler.detect_loop (reading last_reading : List Bool) : List Nat → List Nat × List Nat
  | [] => ([], [])
  | x :: xs =>
    let (ups, downs) := ReadHandler.detect_loop reading last_reading xs
    if reading.getD x false ≠ last_reading.getD x false then
      if reading.getD x false = true then (x :: ups, downs)
      else (ups, x :: downs)
    else (ups, downs)

/-- Embedding of ReadHandler._detect_changed_pins (Driver.py
lines 213-234): iterate x over range(bitcount) accumulating the changed
pin indices. -/
def ReadHandler.detect_changed_pins (bitcount : Nat) (reading last_reading : List Bool) :
    List Nat × List Nat :=
  ReadHandler.detect_loop reading last_reading (List.range bitcount)

theorem ReadHandler.detect_loop_eq (reading last_reading : List Bool) (xs : List Nat) :
    ReadHandler.detect_loop reading last_reading xs =
      (xs.filter (ReadHandler.went_high reading last_reading),
       xs.filter (ReadHandler.went_low reading last_reading)) := by
  induction xs with
  | nil => rfl
  | cons x xs ih =>
      cases hr : reading.getD x false <;> cases hl : last_reading.getD x false <;>
      simp only [List.getD_eq_getElem?_getD] at hr hl <;>
      simp [ReadHandler.detect_loop, ih, ReadHandler.went_high, ReadHandler.went_low,
        hr, hl, List.filter_cons]

theorem ReadHandler.detect_fst_eq (bitcount : Nat) (reading last_reading : List Bool) :
    (ReadHandler.detect_changed_pins bitcount reading last_reading).1 =
      (List.range bitcount).filter (ReadHandler.went_high reading last_reading) := by
  simp [ReadHandler.detect_changed_pins, ReadHandler.detect_loop_eq]

theorem ReadHandler.detect_snd_eq (bitcount : Nat) (reading last_reading : List Bool) :
    (ReadHandler.detect_changed_pins bitcount reading last_reading).2 =
      (List.range bitcount).filter (ReadHandler.went_low reading last_reading) := by
  simp [ReadHandler.detect_changed_pins, ReadHandler.detect_loop_eq]

theorem ReadHandler.detect_fst_sorted (bitcount : Nat) (reading last_reading : List Bool) :
    List.Sorted (· < ·) (ReadHandler.detect_changed_pins bitcount reading last_reading).1 := by
  rw [ReadHandler.detect_fst_eq]
  exact (List.sorted_lt_range bitcount).filter _

theorem ReadHandler.detect_snd_sorted (bitcount : Nat) (reading last_reading : List Bool) :
    List.Sorted (· < ·) (ReadHandler.detect_changed_pins bitcount reading last_reading).2 := by
  rw [ReadHandler.detect_snd_eq]
  exact (List.sorted_lt_range bitcount).filter _

theorem ReadHandler.mem_detect_fst (bitcount : Nat) (reading last_reading : List Bool) (i : Nat) :
    i ∈ (ReadHandler.detect_changed_pins bitcount reading last_reading).1 ↔
      i < bitcount ∧ reading.getD i false ≠ last_reading.getD i false ∧
        reading.getD i false = true := by
  rw [ReadHandler.detect_fst_eq]
  simp [List.mem_filter, ReadHandler.went_high, and_assoc]

theorem ReadHandler.mem_detect_snd (bitcount : Nat) (reading last_reading : List Bool) (i : Nat) :
    i ∈ (ReadHandler.detect_changed_pins bitcount reading last_reading).2 ↔
      i < bitcount ∧ reading.getD i false ≠ last_reading.getD i false ∧
        reading.getD i false = false := by
  rw [ReadHandler.detect_snd_eq]
  simp [List.mem_filter, ReadHandler.went_low, and_assoc]

/-- C3: detect_changed_pins returns two ascending lists of pin indices
that together contain exactly the indices below bitcount where the two
readings differ; an index is in the first (went high) list exactly when
the values differ and the new value is high, in the second (went low)
list exactly when the values differ and the new value is low, and no
index is in both.  Being a plain function of its arguments, it is pure
and deterministic. -/
theorem detect_changed_pins_correct (bitcount : Nat) (reading last_reading : List Bool)
    (hr : reading.length = bitcount) (hl : last_reading.length = bitcount) :
    List.Sorted (· < ·) (ReadHandler.detect_changed_pins bitcount reading last_reading).1 ∧
    List.Sorted (· < ·) (ReadHandler.detect_changed_pins bitcount reading last_reading).2 ∧
    (∀ i, i ∈ (ReadHandler.detect_changed_pins bitcount reading last_reading).1 ↔
      i < bitcount ∧ reading.getD i false ≠ last_reading.getD i false ∧
        reading.getD i false = true) ∧
    (∀ i, i ∈ (ReadHandler.detect_changed_pins bitcount reading last_reading).2 ↔
      i < bitcount ∧ reading.getD i false ≠ last_reading.getD i false ∧
        reading.getD i false = false) ∧
    (∀ i, ¬ (i ∈ (ReadHandler.detect_changed_pins bitcount reading last_reading).1 ∧
             i ∈ (ReadHandler.detect_changed_pins bitcount reading last_reading).2)) := by
  refine ⟨ReadHandler.detect_fst_sorted _ _ _, ReadHandler.detect_snd_sorted _ _ _,
    fun i => ReadHandler.mem_detect_fst _ _ _ i, fun i => ReadHandler.mem_detect_snd _ _ _ i, ?_⟩
  intro i ⟨hup, hdown⟩
  have h1 := (ReadHandler.mem_detect_fst bitcount reading last_reading i).mp hup
  have h2 := (ReadHandler.mem_detect_snd bitcount reading last_reading i).mp hdown
  rw [h1.2.2] at h2
  exact absurd h2.2.2 (by simp)

/-- Witness for C3 at bitcount 4 with one rising and one falling change. -/
theorem detect_changed_pins_correct_witness :
    ([true, false, false, true] : List Bool).length = 4 ∧
    ([false, false, true, true] : List Bool).length = 4 ∧
    (0 ∈ (ReadHandler.detect_changed_pins 4 [true, false, false, true]
      [false, false, true, true]).1 ↔
      0 < 4 ∧ ([true, false, false, true] : List Bool).getD 0 false ≠
        ([false, false, true, true] : List Bool).getD 0 false ∧
        ([true, false, false, true] : List Bool).getD 0 false = true) :=
  ⟨rfl, rfl,
   (detect_changed_pins_correct 4 [true, false, false, true] [false, false, true, true]
     rfl rfl).2.2.1 0⟩

/-- One handler invocation made by ReadHandler._callback: a call of
handle_on_up or handle_on_down on one pin index. -/
inductive CallEv
  | up (pin : Nat)
  | down (pin : Nat)
deriving DecidableEq, Repr

/-- Embedding of ReadHandler._callback (Driver.py lines 249-253): call
handle_on_up once for each pin in pins_changed_up in list order, then
handle_on_down once for each pin in pins_changed_down in list order.
The result is the sequence of handler invocations it performs. -/
def ReadHandler.callback (pins_changed_up pins_changed_down : List Nat) : List CallEv :=
  pins_changed_up.map CallEv.up ++ pins_changed_down.map CallEv.down

theorem ReadHandler.detect_fst_nodup (bitcount : Nat) (reading last_reading : List Bool) :
    (ReadHandler.detect_changed_pins bitcount reading last_reading).1.Nodup := by
  rw [ReadHandler.detect_fst_eq]
  exact List.Nodup.filter _ (List.nodup_range bitcount)

theorem ReadHandler.detect_snd_nodup (bitcount : Nat) (reading last_reading : List Bool) :
    (ReadHandler.detect_changed_pins bitcount reading last_reading).2.Nodup := by
  rw [ReadHandler.detect_snd_eq]
  exact List.Nodup.filter _ (List.nodup_range bitcount)

theorem ReadHandler.count_up_callback (ups downs : List Nat) (hup : ups.Nodup) (i : Nat) :
    (ReadHandler.callback ups downs).count (CallEv.up i) = if i ∈ ups then 1 else 0 := by
  have hinj : Function.Injective CallEv.up := fun a b h => by injection h
  rw [ReadHandler.callback, List.count_append]
  have h0 : (downs.map CallEv.down).count (CallEv.up i) = 0 := by
    rw [List.count_eq_zero]
    simp
  rw [h0, List.count_map_of_injective _ _ hinj]
  by_cases h : i ∈ ups
  · simp [h, List.count_eq_one_of_mem hup h]
  · simp [h, List.count_eq_zero.mpr h]

theorem ReadHandler.count_down_callback (ups downs : List Nat) (hdown : downs.Nodup) (i : Nat) :
    (ReadHandler.callback ups downs).count (CallEv.down i) = if i ∈ downs then 1 else 0 := by
  have hinj : Function.Injective CallEv.down := fun a b h => by injection h
  rw [ReadHandler.callback, List.count_append]
  have h0 : (ups.map CallEv.up).count (CallEv.down i) = 0 := by
    rw [List.count_eq_zero]
    simp
  rw [h0, List.count_map_of_injective _ _ hinj]
  by_cases h : i ∈ downs
  · simp [h, List.count_eq_one_of_mem hdown h]
  · simp [h, List.count_eq_zero.mpr h]

/-- C4: the dispatch performed by _callback on the transition sets
computed by _detect_changed_pins is the list of handle_on_up calls, one
per went-high index, in ascending order, followed by the list of
handle_on_down calls, one per went-low index, in ascending order: the
event sequence is exactly the up calls appended with the down calls (so
every went-high invocation precedes every went-low invocation of the
cycle), both index lists are strictly ascending, and each index is
dispatched exactly once in its own polarity. -/
theorem callback_dispatch_order (bitcount : Nat) (reading last_reading : List Bool)
    (hr : reading.length = bitcount) (hl : last_reading.length = bitcount) :
    ReadHandler.callback (ReadHandler.detect_changed_pins bitcount reading last_reading).1
        (ReadHandler.detect_changed_pins bitcount reading last_reading).2 =
      (ReadHandler.detect_changed_pins bitcount reading last_reading).1.map CallEv.up ++
      (ReadHandler.detect_changed_pins bitcount reading last_reading).2.map CallEv.down ∧
    List.Sorted (· < ·) (ReadHandler.detect_changed_pins bitcount reading last_reading).1 ∧
    List.Sorted (· < ·) (ReadHandler.detect_changed_pins bitcount reading last_reading).2 ∧
    (∀ i, (ReadHandler.callback
        (ReadHandler.detect_changed_pins bitcount reading last_reading).1
        (ReadHandler.detect_changed_pins bitcount reading last_reading).2).count (CallEv.up i) =
      if i ∈ (ReadHandler.detect_changed_pins bitcount reading last_reading).1 then 1 else 0) ∧
    (∀ i, (ReadHandler.callback
        (ReadHandler.detect_changed_pins bitcount reading last_reading).1
        (ReadHandler.detect_changed_pins bitcount reading last_reading).2).count (CallEv.down i) =
      if i ∈ (ReadHandler.detect_changed_pins bitcount reading last_reading).2 then 1 else 0) :=
  ⟨rfl, ReadHandler.detect_fst_sorted _ _ _, ReadHandler.detect_snd_sorted _ _ _,
   ReadHandler.count_up_callback _ _ (ReadHandler.detect_fst_nodup bitcount reading last_reading),
   ReadHandler.count_down_callback _ _ (ReadHandler.detect_snd_nodup bitcount reading last_reading)⟩

/-- Witness for C4 at the example of the claim: readings whose diff has
went_high = [2, 5] and went_low = [1, 3] dispatch in the order
up 2, up 5, down 1, down 3. -/
theorem callback_dispatch_order_witness :
    ([false, false, true, false, false, true] : List Bool).length = 6 ∧
    ([false, true, false, true, false, false] : List Bool).length = 6 ∧
    ReadHandler.detect_changed_pins 6 [false, false, true, false, false, true]
        [false, true, false, true, false, false] = ([2, 5], [1, 3]) ∧
    ReadHandler.callback
        (ReadHandler.detect_changed_pins 6 [false, false, true, false, false, true]
          [false, true, false, true, false, false]).1
        (ReadHandler.detect_changed_pins 6 [false, false, true, false, false, true]
          [false, true, false, true, false, false]).2 =
      (ReadHandler.detect_changed_pins 6 [false, false, true, false, false, true]
        [false, true, false, true, false, false]).1.map CallEv.up ++
      (ReadHandler.detect_changed_pins 6 [false, false, true, false, false, true]
        [false, true, false, true, false, false]).2.map CallEv.down ∧
    ReadHandler.callback [2, 5] [1, 3] =
      [CallEv.up 2, CallEv.up 5, CallEv.down 1, CallEv.down 3] :=
  ⟨rfl, rfl, by decide,
   (callback_dispatch_order 6 [false, false, true, false, false, true]
     [false, true, false, true, false, false] rfl rfl).1, rfl⟩

/-- One iteration body of ReadHandler.watch_inputs (Driver.py
lines 291-299), with the reading returned by read_register supplied as an
argument: if the reading differs from last_reading, compute the diff,
dispatch it through _callback, and update last_reading; otherwise do
nothing.  Returns the handler invocations of the iteration and the value
of last_reading after it. -/
def ReadHandler.watch_step (bitcount : Nat) (reading last_reading : List Bool) :
    List CallEv × List Bool :=
  if reading ≠ last_reading then
    (ReadHandler.callback (ReadHandler.detect_changed_pins bitcount reading last_reading).1
       (ReadHandler.detect_changed_pins bitcount reading last_reading).2,
     reading)
  else ([], last_reading)

/-- The while-True loop of ReadHandler.watch_inputs (Driver.py
lines 291-302).  Each scheduled pair supplies the reading returned by
read_register in that iteration and the value of the externally set
loop_breaker flag observed at the end of that iteration.  Returns the
concatenated handler invocations, the final last_reading, and true when
the loop exited through the flag check (false when the schedule ran out
with the loop still going). -/
def ReadHandler.watch_run (bitcount : Nat) :
    List (List Bool × Bool) → List Bool → List CallEv × List Bool × Bool
  | [], last_reading => ([], last_reading, false)
  | (reading, flag) :: rest, last_reading =>
    let step := ReadHandler.watch_step bitcount reading last_reading
    if flag then (step.1, step.2, true)
    else
      let cont := ReadHandler.watch_run bitcount rest step.2
      (step.1 ++ cont.1, cont.2.1, cont.2.2)

/-- C6: an iteration of watch_inputs whose reading agrees with
last_reading at every index dispatches no handler invocation and leaves
last_reading unchanged (the diff and dispatch are skipped entirely by the
inequality guard). -/
theorem watch_unchanged_frame (bitcount : Nat) (reading last_reading : List Bool)
    (hlen : reading.length = last_reading.length)
    (hpt : ∀ i, reading.getD i false = last_reading.getD i false) :
    ReadHandler.watch_step bitcount reading last_reading = ([], last_reading) := by
  have heq : reading = last_reading := by
    apply List.ext_getElem hlen
    intro i h1 h2
    have h := hpt i
    rwa [List.getD_eq_getElem _ _ h1, List.getD_eq_getElem _ _ h2] at h
  simp [ReadHandler.watch_step, heq]

/-- Witness for C6 at a concrete unchanged reading. -/
theorem watch_unchanged_frame_witness :
    ([true, false, true] : List Bool).length = ([true, false, true] : List Bool).length ∧
    (∀ i, ([true, false, true] : List Bool).getD i false =
      ([true, false, true] : List Bool).getD i false) ∧
    ReadHandler.watch_step 3 [true, false, true] [true, false, true] =
      ([], [true, false, true]) :=
  ⟨rfl, fun _ => rfl, watch_unchanged_frame 3 _ _ rfl (fun _ => rfl)⟩

/-- C7: the loop_breaker flag is observed only at the end of an
iteration.  First part: when the flag is already set as the first
iteration runs (in particular when it was set before the loop started),
watch_inputs still performs that complete iteration, emitting the full
dispatch of its step and committing its last_reading update, and only
then exits.  Second part: the handler trace of any run is a
concatenation of complete per-iteration dispatch traces, so the loop
never exits in the middle of the dispatch of an iteration. -/
theorem watch_stop_after_complete_iteration (bitcount : Nat) (reading last_reading : List Bool)
    (rest sched : List (List Bool × Bool)) :
    ReadHandler.watch_run bitcount ((reading, true) :: rest) last_reading =
      ((ReadHandler.watch_step bitcount reading last_reading).1,
       (ReadHandler.watch_step bitcount reading last_reading).2, true) ∧
    ∃ steps : List (List Bool × List Bool),
      (ReadHandler.watch_run bitcount sched last_reading).1 =
        (steps.map (fun p => (ReadHandler.watch_step bitcount p.1 p.2).1)).flatten := by
  constructor
  · simp [ReadHandler.watch_run]
  · induction sched generalizing last_reading with
    | nil => exact ⟨[], rfl⟩
    | cons p rest2 ih =>
        obtain ⟨reading2, flag⟩ := p
        cases flag with
        | true =>
            refine ⟨[(reading2, last_reading)], ?_⟩
            simp [ReadHandler.watch_run]
        | false =>
            obtain ⟨steps, hsteps⟩ :=
              ih ((ReadHandler.watch_step bitcount reading2 last_reading).2)
            refine ⟨(reading2, last_reading) :: steps, ?_⟩
            simp [ReadHandler.watch_run, hsteps]

/-- A handler call that may raise: handle_on_up and handle_on_down are
meant to be overridden in a child class and may throw; a raising call is
modelled as Except.error carrying an exception payload. -/
def ReadHandler.run_handlers (h : Nat → Except Nat Unit) : List Nat → Except Nat Unit
  | [] => Except.ok ()
  | p :: ps =>
    match h p with
    | Except.error e => Except.error e
    | Except.ok _ => ReadHandler.run_handlers h ps

/-- ReadHandler._callback with fallible handlers: the up handlers run
first, in list order, then the down handlers; the first exception
propagates immediately, skipping the rest. -/
def ReadHandler.callbackE (hUp hDown : Nat → Except Nat Unit) (ups downs : List Nat) :
    Except Nat Unit :=
  match ReadHandler.run_handlers hUp ups with
  | Except.error e => Except.error e
  | Except.ok _ => ReadHandler.run_handlers hDown downs

/-- One iteration body of watch_inputs with fallible handlers: when the
dispatch raises, the assignment to last_reading on Driver.py line 299 is
never reached, so the returned last_reading is the previous one and the
exception payload is reported. -/
def ReadHandler.watch_stepE (bitcount : Nat) (hUp hDown : Nat → Except Nat Unit)
    (reading last_reading : List Bool) : List Bool × Option Nat :=
  if reading ≠ last_reading then
    match ReadHandler.callbackE hUp hDown
        (ReadHandler.detect_changed_pins bitcount reading last_reading).1
        (ReadHandler.detect_changed_pins bitcount reading last_reading).2 with
    | Except.error e => (last_reading, some e)
    | Except.ok _ => (reading, none)
  else (last_reading, none)

/-- The watch_inputs loop with fallible handlers.  watch_inputs wraps the
dispatch in no try block, so an exception raised in an iteration
propagates out of the while loop at once: the remaining schedule is
abandoned and the exception surfaces to the caller.  The third component
is true when the loop exited through the loop_breaker check. -/
def ReadHandler.watch_runE (bitcount : Nat) (hUp hDown : Nat → Except Nat Unit) :
    List (List Bool × Bool) → List Bool → List Bool × Option Nat × Bool
  | [], last_reading => (last_reading, none, false)
  | (reading, flag) :: rest, last_reading =>
    match ReadHandler.watch_stepE bitcount hUp hDown reading last_reading with
    | (lr, some e) => (lr, some e, false)
    | (lr, none) =>
      if flag then (lr, none, true)
      else ReadHandler.watch_runE bitcount hUp hDown rest lr

theorem ReadHandler.watch_stepE_error_fst (bitcount : Nat) (hUp hDown : Nat → Except Nat Unit)
    (reading last_reading lr : List Bool) (e : Nat)
    (h : ReadHandler.watch_stepE bitcount hUp hDown reading last_reading = (lr, some e)) :
    lr = last_reading := by
  unfold ReadHandler.watch_stepE at h
  split at h
  · split at h
    · simp only [Prod.mk.injEq] at h
      exact h.1.symm
    · simp at h
  · simp at h

/-- Counterexample to C5 as stated: the claim asserts that one raising
handler does not abort the polling loop, but watch_inputs isolates
nothing, so the exception terminates the loop.  With bitcount 1, a
handle_on_up that raises payload 7, baseline [false] and two scheduled
polls reading [true] then [false] with the stop flag never set, the run
ends after the first iteration carrying the error (third component false:
the exit was not through the flag), while the identical schedule with
non-raising handlers processes both iterations and ends with
last_reading [false] and no error. -/
theorem watch_handler_raises_counterexample :
    ReadHandler.watch_runE 1 (fun _ => Except.error 7) (fun _ => Except.ok ())
        [([true], false), ([false], false)] [false] = ([false], some 7, false) ∧
    ReadHandler.watch_runE 1 (fun _ => Except.ok ()) (fun _ => Except.ok ())
        [([true], false), ([false], false)] [false] = ([false], none, false) := by
  constructor <;> rfl

/-- C5 amended: when a registered handler raises during dispatch, the
iteration leaves last_reading exactly as it was before the iteration (the
update on Driver.py line 299 is unreachable past the raise) and the
exception is surfaced to the caller of watch_inputs rather than
discarded; however, the loop is aborted by the exception, since the
source performs no handler isolation. -/
theorem watch_handler_raises_amended (bitcount : Nat) (hUp hDown : Nat → Except Nat Unit)
    (reading last_reading lr : List Bool) (flag : Bool) (rest : List (List Bool × Bool)) (e : Nat)
    (h : ReadHandler.watch_stepE bitcount hUp hDown reading last_reading = (lr, some e)) :
    lr = last_reading ∧
    ReadHandler.watch_runE bitcount hUp hDown ((reading, flag) :: rest) last_reading =
      (last_reading, some e, false) := by
  have hlr := ReadHandler.watch_stepE_error_fst bitcount hUp hDown reading last_reading lr e h
  subst hlr
  refine ⟨rfl, ?_⟩
  simp [ReadHandler.watch_runE, h]

/-- Witness for the amended C5 at a concrete raising handler. -/
theorem watch_handler_raises_amended_witness :
    ReadHandler.watch_stepE 1 (fun _ => Except.error 7) (fun _ => Except.ok ())
        [true] [false] = ([false], some 7) ∧
    ReadHandler.watch_runE 1 (fun _ => Except.error 7) (fun _ => Except.ok ())
        [([true], false)] [false] = ([false], some 7, false) :=
  ⟨rfl,
   (watch_handler_raises_amended 1 (fun _ => Except.error 7) (fun _ => Except.ok ())
     [true] [false] [false] false [] 7 rfl).2⟩

theorem ShiftReg.read_register_events (r : ShiftReg) (inp : Nat → Bool) :
    ∀ ev ∈ (r.read_register inp).2,
      (∃ l, ev = Ev.write r.load_reg_pin l) ∨ (∃ l, ev = Ev.write r.clock_pin l) ∨
      (∃ b, ev = Ev.readEv r.data_pin b) := by
  intro ev hev
  rw [ShiftReg.read_register_snd] at hev
  rcases List.mem_append.mp hev with hA | hB
  · simp only [List.mem_cons, List.not_mem_nil, or_false] at hA
    rcases hA with rfl | rfl
    · exact Or.inl ⟨0, rfl⟩
    · exact Or.inl ⟨1, rfl⟩
  · rw [List.mem_flatten] at hB
    obtain ⟨l2, hl2, hevl⟩ := hB
    rw [List.mem_map] at hl2
    obtain ⟨k, _, rfl⟩ := hl2
    simp only [List.mem_cons, List.not_mem_nil, or_false] at hevl
    rcases hevl with rfl | rfl | rfl
    · exact Or.inr (Or.inr ⟨inp k, rfl⟩)
    · exact Or.inr (Or.inl ⟨1, rfl⟩)
    · exact Or.inr (Or.inl ⟨0, rfl⟩)

/-- C8: _gpio_init performs exactly the configuration sequence of the
source: serial data as input with pull-down bias, then clock,
clock-enable and parallel-load as outputs, then the idle defaults clock
low, clock-enable low, parallel-load high.  Every GPIO event of a
read_register call is a write to the parallel-load pin, a write to the
clock pin, or a read of the serial data pin, so when the clock-enable
line is distinct from the parallel-load and clock lines it is never
written again by read_register after setup: it stays at the low level
driven once by _gpio_init for the lifetime of the driver. -/
theorem gpio_init_and_clock_enable_frame (r : ShiftReg) (inp : Nat → Bool)
    (h1 : r.clock_enable ≠ r.load_reg_pin) (h2 : r.clock_enable ≠ r.clock_pin) :
    r.gpio_init =
      [Ev.setup r.data_pin Dir.input Pud.pud_down,
       Ev.setup r.clock_pin Dir.output Pud.pud_off,
       Ev.setup r.clock_enable Dir.output Pud.pud_off,
       Ev.setup r.load_reg_pin Dir.output Pud.pud_off,
       Ev.write r.clock_pin 0,
       Ev.write r.clock_enable 0,
       Ev.write r.load_reg_pin 1] ∧
    (∀ ev ∈ (r.read_register inp).2,
      (∃ l, ev = Ev.write r.load_reg_pin l) ∨ (∃ l, ev = Ev.write r.clock_pin l) ∨
      (∃ b, ev = Ev.readEv r.data_pin b)) ∧
    (∀ l, Ev.write r.clock_enable l ∉ (r.read_register inp).2) := by
  refine ⟨rfl, ShiftReg.read_register_events r inp, ?_⟩
  intro l hmem
  rcases ShiftReg.read_register_events r inp _ hmem with ⟨l2, hev⟩ | ⟨l2, hev⟩ | ⟨b, hev⟩
  · injection hev with hpin _
    exact h1 hpin
  · injection hev with hpin _
    exact h2 hpin
  · simp at hev

/-- Witness for C8 at a concrete driver with distinct pins. -/
theorem gpio_init_and_clock_enable_frame_witness :
    (6 : Nat) ≠ 4 ∧ (6 : Nat) ≠ 5 ∧
    ∀ l, Ev.write 6 l ∉
      (({ data_pin := 26, load_reg_pin := 4, clock_pin := 5, clock_enable := 6,
          bitcount := 8 } : ShiftReg).read_register (fun _ => false)).2 :=
  ⟨by decide, by decide,
   (gpio_init_and_clock_enable_frame
     { data_pin := 26, load_reg_pin := 4, clock_pin := 5, clock_enable := 6, bitcount := 8 }
     (fun _ => false) (by decide) (by decide)).2.2⟩

/-- A Python value passed positionally to the constructor: the arguments
are dynamically typed, so a pin number, a bit count, or a boolean flag
all flow through the same parameter slots. -/
inductive PyVal
  | int (n : Int)
  | bool (b : Bool)
deriving DecidableEq, Repr

/-- The attributes stored by ShiftReg.__init__ (Driver.py lines 39-61);
ReadHandler.__init__ (lines 189-207) forwards its parameters to it in the
same order. -/
structure ShiftRegObj where
  data_pin : PyVal
  load_reg_pin : PyVal
  clock_pin : PyVal
  clock_enable : PyVal
  warnings : PyVal
  bitcount : PyVal
deriving DecidableEq, Repr

/-- Positional binding of a constructor call against the source signature
(serial_out, load_pin, clock_enable, clock_pin, warnings=False,
bitcount=8), with the defaults applied when fewer arguments are given;
none when the arity cannot bind. -/
def shiftRegInit : List PyVal → Option ShiftRegObj
  | [serial_out, load_pin, clock_enable, clock_pin, warnings, bitcount] =>
    some { data_pin := serial_out, load_reg_pin := load_pin, clock_pin := clock_pin,
           clock_enable := clock_enable, warnings := warnings, bitcount := bitcount }
  | [serial_out, load_pin, clock_enable, clock_pin, warnings] =>
    some { data_pin := serial_out, load_reg_pin := load_pin, clock_pin := clock_pin,
           clock_enable := clock_enable, warnings := warnings, bitcount := PyVal.int 8 }
  | [serial_out, load_pin, clock_enable, clock_pin] =>
    some { data_pin := serial_out, load_reg_pin := load_pin, clock_pin := clock_pin,
           clock_enable := clock_enable, warnings := PyVal.bool false, bitcount := PyVal.int 8 }
  | _ => none

/-- Counterexample to C9 as stated: in the source signature the fifth
positional parameter is the warnings flag and the sixth is the bit count,
not the other way round.  A six-argument call following the claimed order
(serial_data, load, clock_enable, clock, bit_count 16, suppress True)
stores the boolean True as the bit count and the integer 16 as the
warnings flag. -/
theorem constructor_order_counterexample :
    (shiftRegInit [PyVal.int 26, PyVal.int 4, PyVal.int 6, PyVal.int 5, PyVal.int 16,
      PyVal.bool true]).map ShiftRegObj.bitcount = some (PyVal.bool true) ∧
    (shiftRegInit [PyVal.int 26, PyVal.int 4, PyVal.int 6, PyVal.int 5, PyVal.int 16,
      PyVal.bool true]).map ShiftRegObj.bitcount ≠ some (PyVal.int 16) ∧
    (shiftRegInit [PyVal.int 26, PyVal.int 4, PyVal.int 6, PyVal.int 5, PyVal.int 16,
      PyVal.bool true]).map ShiftRegObj.warnings = some (PyVal.int 16) := by
  refine ⟨rfl, ?_, rfl⟩
  decide

/-- C9 amended: the public constructor accepts, in order, the
serial-data, parallel-load, clock-enable and clock pin identifiers as the
first four positional parameters, the warnings-suppression flag as the
fifth (default False), and the bit count as the sixth (default 8). -/
theorem constructor_order_amended (a b c d e f : PyVal) :
    shiftRegInit [a, b, c, d, e, f] =
      some { data_pin := a, load_reg_pin := b, clock_pin := d, clock_enable := c,
             warnings := e, bitcount := f } ∧
    shiftRegInit [a, b, c, d, e] =
      some { data_pin := a, load_reg_pin := b, clock_pin := d, clock_enable := c,
             warnings := e, bitcount := PyVal.int 8 } ∧
    shiftRegInit [a, b, c, d] =
      some { data_pin := a, load_reg_pin := b, clock_pin := d, clock_enable := c,
             warnings := PyVal.bool false, bitcount := PyVal.int 8 } :=
  ⟨rfl, rfl, rfl⟩

/-- The process-wide GPIO claim table maintained by the RPi.GPIO module:
the set of lines the process has claimed through io.setup. -/
structure GpioState where
  claimed : List Nat
deriving DecidableEq, Repr

/-- Effect of io.cleanup() called with no pin argument (Driver.py
line 178): every line the process has claimed is released, whichever
driver instance claimed it. -/
def ioCleanup (s : GpioState) : GpioState :=
  { claimed := [] }

/-- Effect of the four io.setup calls of _gpio_init on the process claim
table: the four lines of the instance are claimed in addition to whatever
was already claimed. -/
def ShiftReg.setup_claims (r : ShiftReg) (s : GpioState) : GpioState :=
  { claimed := s.claimed ++ [r.data_pin, r.clock_pin, r.clock_enable, r.load_reg_pin] }

/-- Embedding of ShiftReg.clean_gpio (Driver.py lines 170-178): a bare
io.cleanup() with no pin argument. -/
def ShiftReg.clean_gpio (r : ShiftReg) (s : GpioState) : GpioState :=
  ioCleanup s

/-- Embedding of ShiftReg.__exit__ (Driver.py lines 67-69): clean_gpio is
invoked whatever the exception information is, so on every exit path of a
with block, normal or unwinding. -/
def ShiftReg.exit_cm (r : ShiftReg) (exc : Option Nat) (s : GpioState) : GpioState :=
  r.clean_gpio s

/-- C10: tearing down one driver through the context manager releases
every line the process has claimed, not only the four lines of that
driver: __exit__ invokes clean_gpio on every exit path, and clean_gpio
calls the global io.cleanup() with no pin argument, so after two drivers
have claimed their lines and the first one exits, the claim table is
empty and in particular every line claimed for the second driver is
released as well. -/
theorem exit_releases_all_claims (rA rB : ShiftReg) (exc : Option Nat) (s0 : GpioState)
    (p : Nat) (hp : p ∈ (rB.setup_claims (rA.setup_claims s0)).claimed) :
    rA.exit_cm exc (rB.setup_claims (rA.setup_claims s0)) = { claimed := [] } ∧
    p ∉ (rA.exit_cm exc (rB.setup_claims (rA.setup_claims s0))).claimed := by
  refine ⟨rfl, ?_⟩
  simp [ShiftReg.exit_cm, ShiftReg.clean_gpio, ioCleanup]

/-- Witness for C10: a line claimed for a second driver is released when
the first driver exits abnormally. -/
theorem exit_releases_all_claims_witness :
    (17 : Nat) ∈ (ShiftReg.setup_claims
      { data_pin := 17, load_reg_pin := 27, clock_pin := 22, clock_enable := 23, bitcount := 8 }
      (ShiftReg.setup_claims
        { data_pin := 26, load_reg_pin := 4, clock_pin := 5, clock_enable := 6, bitcount := 8 }
        { claimed := [] })).claimed ∧
    (17 : Nat) ∉ (ShiftReg.exit_cm
      { data_pin := 26, load_reg_pin := 4, clock_pin := 5, clock_enable := 6, bitcount := 8 }
      (some 1)
      (ShiftReg.setup_claims
        { data_pin := 17, load_reg_pin := 27, clock_pin := 22, clock_enable := 23, bitcount := 8 }
        (ShiftReg.setup_claims
          { data_pin := 26, load_reg_pin := 4, clock_pin := 5, clock_enable := 6, bitcount := 8 }
          { claimed := [] }))).claimed :=
  ⟨by decide,
   (exit_releases_all_claims
     { data_pin := 26, load_reg_pin := 4, clock_pin := 5, clock_enable := 6, bitcount := 8 }
     { data_pin := 17, load_reg_pin := 27, clock_pin := 22, clock_enable := 23, bitcount := 8 }
     (some 1) { claimed := [] } 17 (by decide)).2⟩
